import Mathlib

set_option linter.unusedVariables false

/-!
Shallow embedding of the flexnet FlexNet protocol client
(src/client.py, src/file.py, src/licenses.py).  Byte strings are modelled
as `List Nat`, each element one byte value; Python run-time exceptions are
modelled with `Except PyErr`.
-/

deriving instance DecidableEq for Except

/-- Kinds of Python run-time errors and raised exceptions used by the client. -/
inductive PyErr where
  | indexError
  | keyError
  | valueError
  | structError
  | typeError
  | checksumError
  | timeout
  | protocolError
deriving Repr, DecidableEq

/-- Turn an optional value into an `Except`, raising `e` on `none`. -/
def getE {α : Type} (o : Option α) (e : PyErr) : Except PyErr α :=
  match o with
  | some a => .ok a
  | none => .error e

/-- `struct.pack("!H", n)`: two big-endian bytes (for `n < 2^16`). -/
def pack16 (n : Nat) : List Nat :=
  [n / 256 % 256, n % 256]

/-- `struct.pack("!L", n)`: four big-endian bytes (for `n < 2^32`). -/
def pack32 (n : Nat) : List Nat :=
  [n / 16777216 % 256, n / 65536 % 256, n / 256 % 256, n % 256]

/-- Python slicing `l[i:j]` for byte strings. -/
def pySlice (l : List Nat) (i j : Nat) : List Nat :=
  (l.drop i).take (j - i)

/-- `struct.unpack("!H", s)`: requires exactly two bytes. -/
def unpack16 (l : List Nat) : Option Nat :=
  match l with
  | [a, b] => some (256 * a + b)
  | _ => none

/-- `struct.unpack("!L", s)`: requires exactly four bytes. -/
def unpack32 (l : List Nat) : Option Nat :=
  match l with
  | [a, b, c, d] => some (((a * 256 + b) * 256 + c) * 256 + d)
  | _ => none

/-- `struct.unpack("!Q", s)`: requires exactly eight bytes. -/
def unpack64 (l : List Nat) : Option Nat :=
  match l with
  | [a, b, c, d, e, f, g, h] =>
    some (((((((a * 256 + b) * 256 + c) * 256 + d) * 256 + e) * 256 + f) * 256 + g) * 256 + h)
  | _ => none

/-- `struct.unpack("2B", s)`: requires exactly two bytes, kept as a pair. -/
def unpack2B (l : List Nat) : Option (Nat × Nat) :=
  match l with
  | [a, b] => some (a, b)
  | _ => none

/-- Python `s.split('\x00')` on a byte string. -/
def splitOnNul (l : List Nat) : List (List Nat) :=
  match l with
  | [] => [[]]
  | c :: rest =>
    let r := splitOnNul rest
    if c = 0 then [] :: r
    else
      match r with
      | [] => [[c]]
      | f :: fs => (c :: f) :: fs

/-- Python `s.split(sep, 1)` when `sep` occurs: the pieces before and after
the first occurrence; `none` when `sep` does not occur. -/
def splitOnce (l : List Nat) (sep : Nat) : Option (List Nat × List Nat) :=
  match l with
  | [] => none
  | c :: rest =>
    if c = sep then some ([], rest)
    else
      match splitOnce rest sep with
      | none => none
      | some (a, b) => some (c :: a, b)

/-- Python `s.strip(cs)` on a byte string: drop the characters of `cs` from
both ends. -/
def stripChars (l : List Nat) (cs : List Nat) : List Nat :=
  ((l.dropWhile (· ∈ cs)).reverse.dropWhile (· ∈ cs)).reverse

/-- Python `s.strip('\x00')`. -/
def strip0 (l : List Nat) : List Nat :=
  stripChars l [0]

/-- ASCII decimal digit test. -/
def isDigitB (c : Nat) : Bool :=
  48 ≤ c && c ≤ 57

/-- Python whitespace characters (the `\s` class for byte strings). -/
def wsChars : List Nat := [9, 10, 11, 12, 13, 32]

/-- Python 2 `int(s)` on a byte string: optional surrounding whitespace,
an optional single `+` or `-` sign, then one or more decimal digits;
`none` where Python raises `ValueError`.  The value is an integer: a
sign-prefixed string such as `"-1"` parses to a negative number. -/
def parseDec (l : List Nat) : Option Int :=
  let t := ((l.dropWhile (· ∈ wsChars)).reverse.dropWhile (· ∈ wsChars)).reverse
  let digs := if t.head? = some 43 ∨ t.head? = some 45 then t.tail else t
  if digs ≠ [] ∧ digs.all isDigitB then
    let m : Nat := digs.foldl (fun acc c => 10 * acc + (c - 48)) 0
    some (if t.head? = some 45 then -(m : Int) else (m : Int))
  else none

/-- `s.ljust(w, '\x00')`: pad on the right with NUL bytes up to width `w`. -/
def ljustZ (l : List Nat) (w : Nat) : List Nat :=
  l ++ List.replicate (w - l.length) 0

/-- Byte values of a Lean string (for readable ASCII test data). -/
def strB (s : String) : List Nat :=
  s.toList.map Char.toNat

/-! ## CRC (client.py lines 41-43)

The CRC primitive itself is the external `pycrc` library, configured as
`pycrc.Crc(width=14, poly=0x2e97, reflect_in=True, xor_in=0,
reflect_out=True, xor_out=0)`.  Modelled from the spec: a 14-bit CRC with
polynomial 0x2E97, reflected input and output, zero xor values, which is
the standard bit-reflected CRC computation below. -/

/-- Reflect the low `w` bits of `n`. -/
def reflectBits (n w : Nat) : Nat :=
  (List.range w).foldl (fun acc i => acc ||| (((n >>> i) &&& 1) <<< (w - 1 - i))) 0

/-- The reflected form of the 14-bit polynomial 0x2E97. -/
def crcPolyRefl : Nat := reflectBits 0x2e97 14

/-- One bit step of the reflected CRC register. -/
def crcBitStep (c : Nat) : Nat :=
  if c % 2 = 1 then (c >>> 1) ^^^ crcPolyRefl else c >>> 1

/-- Feed one byte into the reflected CRC register. -/
def crcUpdate (c b : Nat) : Nat :=
  crcBitStep^[8] (c ^^^ b)

/-- `crc.table_driven(map(ord, data))`: CRC-14/0x2E97 over a byte string. -/
def crc14 (data : List Nat) : Nat :=
  data.foldl crcUpdate 0

/-! ## Framing (client.py `_Client._checkbytes`, `_Client._header_create`) -/

/-- `_Client._checkbytes` (client.py lines 229-235): the CRC packed into two
big-endian bytes, preceded by the check byte
`(sum of the CRC bytes + sum of the first 16 bytes of the buffer + 47) % 256`. -/
def checkbytes (data : List Nat) : List Nat :=
  let crcStr := pack16 (crc14 data)
  (crcStr.sum + (data.take 16).sum + 47) % 256 :: crcStr

/-- The 16-byte modern header: request length, request type and timestamp
packed big-endian, null-padded to 16 bytes. -/
def hdr16 (reqlen reqtype ts : Nat) : List Nat :=
  ljustZ (pack16 reqlen ++ pack16 reqtype ++ pack32 ts) 16

/-- `_Client._header_create` (client.py lines 208-227): the 20-byte envelope
`0x2F || checkbytes(header ++ data) || header` put before `data`. -/
def headerCreate (data : List Nat) (reqtype ts : Nat) : List Nat :=
  let header := hdr16 (data.length + 20) reqtype ts
  0x2f :: (checkbytes (header ++ data) ++ header)

/-- A full modern frame as emitted by the client: envelope followed by body
(`self._header_create(data, reqtype) + data` in `_Client._stub` and
`ManagerClient._request_pack`). -/
def writeFrame (reqtype ts : Nat) (data : List Nat) : List Nat :=
  headerCreate data reqtype ts ++ data

/-- A modern frame assembled directly from its post-envelope bytes `tail`
(header ++ body): `0x2F || checkbytes(tail) || tail`.  Used to build
concrete server responses in witnesses. -/
def mkModernFrame (rest : List Nat) : List Nat :=
  0x2f :: (checkbytes rest ++ rest)

/-- The `HEADERLENS` table (client.py lines 29-35): per-type header length. -/
def HEADERLENS (t : Nat) : Option Nat :=
  if t = 0x004e then some 20
  else if t = 0x010e then some 24
  else if t = 0x0113 then some 20
  else if t = 0x0114 then some 20
  else if t = 0x0128 then some 20
  else if t = 0x0146 then some 24
  else none

/-! ## Header parsing (client.py `_Client._header_parse`, `_header_validate`) -/

/-- The parsed header dictionary of `_Client._header_parse`: every field the
source may set, absent fields as `none`. -/
structure Header where
  pfx : Nat
  checksum : Option Nat := none
  crc : Option Nat := none
  msg_len : Option Nat := none
  htype : Option Nat := none
  len : Option Nat := none
  token : Option Nat := none
  srv_ver : Option (Nat × Nat) := none
  suffix : Option Nat := none
  time : Option Nat := none
  txt_len : Option Nat := none
deriving Repr, DecidableEq

/-- `_Client._header_parse` together with `_Client._header_validate`
(client.py lines 237-269).  Legacy prefixes 0x4C and 0x4E return early;
modern frames read check byte, CRC, length and type, look the type up in
`HEADERLENS` (KeyError when absent), read type-specific extras, then
compare `checkbytes(data[4:])` with `data[1:4]` (ValueError on mismatch,
modelled as `checksumError`). -/
def headerParse (data : List Nat) : Except PyErr Header :=
  match data.get? 0 with
  | none => .error .indexError
  | some p =>
    if p = 0x4c then .ok { pfx := p }
    else if p = 0x4e then .ok { pfx := p, len := some 2 }
    else
      match data.get? 1 with
      | none => .error .indexError
      | some cksum =>
      match unpack16 (pySlice data 2 4) with
      | none => .error .structError
      | some crcv =>
      match unpack16 (pySlice data 4 6) with
      | none => .error .structError
      | some mlen =>
      match unpack16 (pySlice data 6 8) with
      | none => .error .structError
      | some ty =>
      match HEADERLENS ty with
      | none => .error .keyError
      | some hlen =>
        let base : Header :=
          { pfx := p, checksum := some cksum, crc := some crcv,
            msg_len := some mlen, htype := some ty, len := some hlen }
        let extras : Except PyErr Header :=
          if ty = 0x010e then
            match unpack32 (pySlice data 8 12) with
            | none => .error .structError
            | some tok =>
            match unpack2B (pySlice data 20 22) with
            | none => .error .structError
            | some sv =>
            match unpack16 (pySlice data 22 24) with
            | none => .error .structError
            | some sfx =>
              .ok { base with token := some tok, srv_ver := some sv, suffix := some sfx }
          else if ty = 0x0146 then
            match unpack32 (pySlice data 8 12) with
            | none => .error .structError
            | some tv =>
            match unpack16 (pySlice data 22 24) with
            | none => .error .structError
            | some tl =>
              .ok { base with time := some tv, txt_len := some tl }
          else if ty = 0x0114 then
            match unpack32 (pySlice data 8 12) with
            | none => .error .structError
            | some tv =>
              .ok { base with time := some tv }
          else .ok base
        match extras with
        | .error e => .error e
        | .ok hd =>
          if checkbytes (data.drop 4) = pySlice data 1 4 then .ok hd
          else .error .checksumError

/-! ## Legacy chunked reading (client.py `_Client._query`, 0x4C branch, and
`_Client._length_remaining`) -/

/-- `_Client._length_remaining` (client.py lines 306-307):
`int(data[2:13].split('\x00')[0])`. -/
def lengthRemainingB (data : List Nat) : Option Int :=
  parseDec ((pySlice data 2 13).takeWhile (· ≠ 0))

/-- The 0x4C read loop of `_Client._query` (client.py lines 284-289): while
the length declared by the most recent chunk exceeds 147 - 13 = 134, pull
another full 147-byte chunk and re-read the declared length from it.
Returns the extra bytes read and the number of extra chunks pulled; an
exhausted stream blocks in Python, modelled as `timeout`. -/
def legacyLoop (fuel : Nat) (stream : List Nat) (declared : Int) :
    Except PyErr (List Nat × Nat) :=
  if 134 < declared then
    match fuel with
    | 0 => .error .timeout
    | fuel + 1 =>
      if stream.length < 147 then .error .timeout
      else
        match lengthRemainingB (stream.take 147) with
        | none => .error .valueError
        | some d =>
          match legacyLoop fuel (stream.drop 147) d with
          | .error e => .error e
          | .ok (bs, k) => .ok (stream.take 147 ++ bs, k + 1)
  else .ok ([], 0)

/-- The whole 0x4C branch of `_Client._query`: read the first (up to)
147-byte chunk, then run the loop on its declared length.  Returns the
assembled response and the remaining stream.  The fuel `stream.length`
always suffices because every iteration consumes a full 147-byte chunk. -/
def legacyQuery (stream : List Nat) : Except PyErr (List Nat × List Nat) :=
  match lengthRemainingB (stream.take 147) with
  | none => .error .valueError
  | some d =>
    match legacyLoop stream.length (stream.drop 147) d with
    | .error e => .error e
    | .ok (bs, k) => .ok (stream.take 147 ++ bs, stream.drop (147 * (k + 1)))

/-- The network as seen by one client: the incoming byte stream, the list
of requests written so far, and a count of `_query` calls (socket reads). -/
structure Net where
  stream : List Nat
  sent : List (List Nat)
  reads : Nat
deriving Repr, DecidableEq

/-- The read stage of `_Client._query` (client.py lines 276-304): read one
response.  The first byte must be one of 0x2F, 0x4C, 0x4E; 0x4C responses
are chunk-assembled, 0x4E responses are a single (up to) 147-byte read,
0x2F responses read the total length from header bytes 4..6 and pull
exactly that many bytes. -/
def queryRead (net1 : Net) : Except PyErr (List Nat × Net) :=
  match net1.stream with
  | [] => .error .timeout
  | p :: _ =>
    if p ≠ 0x2f ∧ p ≠ 0x4c ∧ p ≠ 0x4e then .error .protocolError
    else if p = 0x4c then
      match legacyQuery net1.stream with
      | .error e => .error e
      | .ok (resp, rest) => .ok (resp, { net1 with stream := rest })
    else if p = 0x4e then
      .ok (net1.stream.take 147, { net1 with stream := net1.stream.drop 147 })
    else
      if net1.stream.length < 20 then .error .timeout
      else if 256 * net1.stream.getD 4 0 + net1.stream.getD 5 0 ≤ 20 then
        .ok (net1.stream.take 20, { net1 with stream := net1.stream.drop 20 })
      else if net1.stream.length < 256 * net1.stream.getD 4 0 + net1.stream.getD 5 0 then
        .error .timeout
      else
        .ok (net1.stream.take (256 * net1.stream.getD 4 0 + net1.stream.getD 5 0),
          { net1 with stream :=
              net1.stream.drop (256 * net1.stream.getD 4 0 + net1.stream.getD 5 0) })

/-- `_Client._query`: the optional send followed by the read stage. -/
def query (req : Option (List Nat)) (net : Net) : Except PyErr (List Nat × Net) :=
  queryRead
    (match req with
     | some r => { net with sent := net.sent ++ [r], reads := net.reads + 1 }
     | none => { net with reads := net.reads + 1 })

/-! ## Response parsing (client.py `_Client._request_parse`) -/

/-- The message dictionary built by `_Client._request_parse`: every key the
source may set, absent keys as `none`.  `pfx2` is the message key
`"prefix"` of REQLIC1 replies (distinct from the header prefix). -/
structure Msg where
  header : Header
  text : Option (List (List Nat)) := none
  hostname : Option (List Nat) := none
  daemon : Option (List Nat) := none
  server_version : Option (Nat × Nat) := none
  vendor_hostname : Option (List Nat) := none
  vendor_port : Option Nat := none
  pfx2 : Option (Nat × Nat) := none
  used : Option Int := none
  total : Option Int := none
  timestamp : Option Int := none
  group_reservation : Option (List Nat) := none
  user : Option (List Nat) := none
  host : Option (List Nat) := none
  tty : Option (List Nat) := none
  version : Option (List Nat) := none
  time : Option Nat := none
  number : Option Nat := none
deriving Repr, DecidableEq

/-- The version threshold `VER_NEW = (11, 10)` (client.py lines 38-39). -/
def VER_NEW : Nat × Nat := (11, 10)

/-- The dialect update of the TYPE_HELLO branch (client.py lines 134-138):
`oldproto` is set to `True` when the server version, packed as
`major << 8 | minor`, is below the same packing of `VER_NEW`. -/
def processHelloVer (oldproto : Option Bool) (ver : Nat × Nat) : Option Bool :=
  if (ver.1 <<< 8) ||| ver.2 < ((VER_NEW.1 <<< 8) ||| VER_NEW.2) then some true
  else oldproto

/-- Python truthiness of the `self.oldproto` attribute: `None` and `False`
are falsy (MODERN dialect), `True` is truthy (LEGACY dialect). -/
def dialectLegacy (oldproto : Option Bool) : Bool :=
  oldproto.getD false

/-- The spec's wording for the dialect rule: `(major, minor)`
lexicographically below `(11, 10)`. -/
def lexBelowVerNew (ver : Nat × Nat) : Bool :=
  ver.1 < 11 || (ver.1 = 11 && ver.2 < 10)

/-- The 0x4C branch of `_Client._request_parse` (client.py lines 120-125):
concatenate bytes 13..147 of every 147-byte chunk of the response, strip
NULs from the ends, split on NUL. -/
def chunkPayloads (fuel : Nat) (r : List Nat) : List Nat :=
  match fuel with
  | 0 => []
  | fuel + 1 =>
    if r = [] then []
    else (r.drop 13).take 134 ++ chunkPayloads fuel (r.drop 147)

/-- The legacy response text: `resp_text.strip('\x00').split('\x00')`.
The fuel `r.length` always suffices because every chunk step drops at
least one byte. -/
def legacyText (r : List Nat) : List (List Nat) :=
  splitOnNul (strip0 (chunkPayloads r.length r))

/-- The REQLIC2 user-checkout branch of `_Client._request_parse`
(client.py lines 186-195). -/
def reqlic2UserMsg (hd : Header) (txtfields : List (List Nat)) (s1 : List Nat) :
    Except PyErr Msg :=
  match txtfields.get? 0, txtfields.get? 1, txtfields.get? 2, txtfields.get? 3 with
  | some u, some h, some t, some v =>
    match unpack32 (pySlice s1 4 8) with
    | none => .error .structError
    | some tv =>
      match unpack64 (pySlice s1 8 16) with
      | none => .error .structError
      | some num =>
        .ok { header := hd, user := some u, host := some h, tty := some t,
              version := some v, time := some tv, number := some num }
  | _, _, _, _ => .error .indexError

/-- `_Client._request_parse` (client.py lines 113-206): parse the header,
then dispatch on the legacy prefix or the modern message type.  Returns the
message and the (possibly updated) `oldproto` attribute. -/
def requestParse (oldproto : Option Bool) (response : List Nat) :
    Except PyErr (Msg × Option Bool) :=
  match headerParse response with
  | .error e => .error e
  | .ok hd =>
    if hd.pfx = 0x4c then
      .ok ({ header := hd, text := some (legacyText response) }, oldproto)
    else if hd.htype = some 0x010e then
      match hd.len with
      | none => .error .keyError
      | some L =>
        let txt := splitOnNul (strip0 (response.drop L))
        match txt.get? 0, txt.get? 1 with
        | some hn, some dm =>
          match hd.srv_ver with
          | none => .error .keyError
          | some sv =>
            .ok ({ header := hd, hostname := some hn, daemon := some dm,
                   server_version := some sv }, processHelloVer oldproto sv)
        | _, _ => .error .indexError
    else if hd.htype = some 0x0113 then
      match hd.len with
      | none => .error .keyError
      | some L =>
        match splitOnce (response.drop L) 0 with
        | none => .error .valueError
        | some (hn, rem) =>
          match unpack32 (rem.take 4) with
          | none => .error .structError
          | some port =>
            .ok ({ header := hd, vendor_hostname := some hn,
                   vendor_port := some port }, oldproto)
    else if hd.htype = some 0x0128 then
      match hd.len with
      | none => .error .keyError
      | some L =>
        let fields := ((splitOnNul (response.drop L)).map
          (fun x => stripChars x [1, 7])).filter (fun x => x.length ≠ 0)
        .ok ({ header := hd, text := some fields }, oldproto)
    else if hd.htype = some 0x004e then
      match hd.len with
      | none => .error .keyError
      | some L =>
        let payload := response.drop L
        match unpack2B (payload.take 2) with
        | none => .error .structError
        | some pfx2 =>
          let fields := (splitOnNul (payload.drop 2)).filter (fun x => x.length ≠ 0)
          match fields.get? 0, fields.get? 1, fields.get? 2 with
          | some f0, some f1, some f2 =>
            match parseDec f0, parseDec f1, parseDec f2 with
            | some u, some t, some ts =>
              .ok ({ header := hd, pfx2 := some pfx2, used := some u,
                     total := some t, timestamp := some ts }, oldproto)
            | _, _, _ => .error .valueError
          | _, _, _ => .error .indexError
    else if hd.htype = some 0x0114 then
      match hd.len with
      | none => .error .keyError
      | some L =>
        match splitOnce (response.drop L) 1 with
        | none => .error .indexError
        | some (s0, s1) =>
          let txtfields := splitOnNul s0
          if s1.sum = 0 then
            match txtfields.get? 0 with
            | none => .error .indexError
            | some f0 =>
              match f0 with
              | [] => .error .indexError
              | c :: rest =>
                if c = 71 then
                  .ok ({ header := hd, group_reservation := some rest }, oldproto)
                else
                  match reqlic2UserMsg hd txtfields s1 with
                  | .error e => .error e
                  | .ok m => .ok (m, oldproto)
          else
            match reqlic2UserMsg hd txtfields s1 with
            | .error e => .error e
            | .ok m => .ok (m, oldproto)
    else
      match hd.len with
      | none => .error .keyError
      | some L =>
        let fields := (splitOnNul (strip0 (response.drop L))).filter
          (fun x => x.length ≠ 0)
        .ok ({ header := hd, text := some fields }, oldproto)

/-! ## HELLO request packing (client.py `_Client._hello_pack`) -/

/-- `_Client._hello_pack` (client.py lines 89-108): seven fields null-padded
to fixed widths, each followed by one NUL, then the two version bytes and
the literal trailer `'78\x0014\x00'`; the whole preceded by
`0x68, check_byte, 0x31, 0x33` with
`check_byte = sum(body[:-2]) % 256`. -/
def helloPack (user host vendor tty pid arch : List Nat) (ver : Nat × Nat) : List Nat :=
  let body := ljustZ user 20 ++ [0] ++ ljustZ host 32 ++ [0] ++ ljustZ vendor 10 ++ [0] ++
              ljustZ tty 32 ++ [0] ++ ljustZ [0x84] 12 ++ [0] ++ ljustZ pid 10 ++ [0] ++
              ljustZ arch 12 ++ [0] ++ [ver.1, ver.2] ++ [0x37, 0x38, 0, 0x31, 0x34, 0]
  let cb := (body.take (body.length - 2)).sum % 256
  0x68 :: cb :: 0x31 :: 0x33 :: body

/-! ## Licenses (licenses.py `License`) and the vendor status query
(client.py `VendorClient.query_vendor_license_status` and helpers) -/

/-- The subset of `flexnet.licenses.License` attributes read by the network
client (licenses.py lines 36-46): `feature` is required; `sign` and
`others` are optional (`None` when the parsed license lacks them). -/
structure License where
  feature : List Nat
  sign : Option (List Nat) := none
  others : Option (List (List Nat)) := none
deriving Repr, DecidableEq

/-- The `lic.others[0]` fallback (client.py line 509): indexing `None`
raises TypeError, indexing an empty list raises IndexError. -/
def resolveOthers (lic : License) : Except PyErr (List Nat) :=
  match lic.others with
  | none => .error .typeError
  | some [] => .error .indexError
  | some (x :: _) => .ok x

/-- The identifier selection of `query_vendor_license_status` (client.py
lines 506-509): use `lic.sign`, falling back to `lic.others[0]` when
`sign` is falsy (`None` or the empty string). -/
def resolveSign (lic : License) : Except PyErr (List Nat) :=
  match lic.sign with
  | some s => if s ≠ [] then .ok s else resolveOthers lic
  | none => resolveOthers lic

/-- The REQLIC request body of `VendorClient._query_license_status`
(client.py line 530): `'\x00'.join([feature, sign[:20]]) + '\x00'*4 + '\x01'`. -/
def statusReqBody (feature sign : List Nat) : List Nat :=
  feature ++ 0 :: sign.take 20 ++ [0, 0, 0, 0, 1]

/-- `VendorClient._query_license_status` (client.py lines 527-536): frame
and send the REQLIC request, read one response, parse it, and read the
`prefix`/`used`/`total`/`timestamp` message keys (KeyError when absent).
The parsed status: `pfx2` is the REQLIC1 2-byte message prefix (absent on
the legacy path), and `usage` is filled in later by the drain loop. -/
structure Status where
  pfx2 : Option (Nat × Nat) := none
  used : Int
  total : Int
  timestamp : Int
  usage : List Msg := []
deriving Repr, DecidableEq

def queryLicenseStatus (feature sign : List Nat) (oldproto : Option Bool) (ts : Nat)
    (net : Net) : Except PyErr (Status × Option Bool × Net) :=
  match query (some (writeFrame 0x013c ts (statusReqBody feature sign))) net with
  | .error e => .error e
  | .ok (resp, net1) =>
    match requestParse oldproto resp with
    | .error e => .error e
    | .ok (msg, op1) =>
      match msg.pfx2, msg.used, msg.total, msg.timestamp with
      | some p, some u, some t, some tm =>
        .ok ({ pfx2 := some p, used := u, total := t, timestamp := tm }, op1, net1)
      | _, _, _, _ => .error .keyError

/-- The legacy status request of `VendorClient._query_license_status_old`
(client.py lines 541-544): `feature.ljust(31) || sign.ljust(21) || '1'`
preceded by `0x6C` and the check byte `(sum(body) + 108) % 256`, padded to
147 bytes. -/
def oldStatusReq (feature sign : List Nat) : List Nat :=
  let body := ljustZ feature 31 ++ ljustZ sign 21 ++ [0x31]
  ljustZ (0x6c :: (body.sum + 108) % 256 :: body) 147

/-- The retry loop of `VendorClient._query_license_status_old` (client.py
lines 545-553): send the request and re-send it until a response starting
with 0x4E arrives.  The inner guard re-checks that the read consumed
stream bytes; a successful `query` always does, so the `timeout` branch is
unreachable and only justifies termination. -/
def oldStatusLoop (req : List Nat) (net : Net) : Except PyErr (List Nat × Net) :=
  match query (some req) net with
  | .error e => .error e
  | .ok (resp, net1) =>
    match resp.get? 0 with
    | none => .error .indexError
    | some b =>
      if b = 0x4e then .ok (resp, net1)
      else
        if h : net1.stream.length < net.stream.length then oldStatusLoop req net1
        else .error .timeout
termination_by net.stream.length

/-- `VendorClient._query_license_status_old` (client.py lines 538-559):
loop until the 0x4E response, parse it, and read `used`/`total`/`timestamp`
from its text fields. -/
def queryLicenseStatusOld (feature sign : List Nat) (oldproto : Option Bool)
    (net : Net) : Except PyErr (Status × Option Bool × Net) :=
  match oldStatusLoop (oldStatusReq feature sign) net with
  | .error e => .error e
  | .ok (resp, net1) =>
    match requestParse oldproto resp with
    | .error e => .error e
    | .ok (msg, op1) =>
      match msg.text with
      | none => .error .keyError
      | some txt =>
        match txt.get? 0, txt.get? 1, txt.get? 2 with
        | some f0, some f1, some f2 =>
          match parseDec f0, parseDec f1, parseDec f2 with
          | some u, some t, some tm =>
            .ok ({ used := u, total := t, timestamp := tm }, op1, net1)
          | _, _, _ => .error .valueError
        | _, _, _ => .error .indexError

/-- The usage drain of `query_vendor_license_status` (client.py lines
519-523) with `VendorClient._query_license_usage` (lines 561-566): read and
parse one response per iteration, sending nothing. -/
def drainUsage (n : Nat) (oldproto : Option Bool) (net : Net) :
    Except PyErr (List Msg × Option Bool × Net) :=
  match n with
  | 0 => .ok ([], oldproto, net)
  | m + 1 =>
    match query none net with
    | .error e => .error e
    | .ok (resp, net1) =>
      match requestParse oldproto resp with
      | .error e => .error e
      | .ok (msg, op1) =>
        match drainUsage m op1 net1 with
        | .error e => .error e
        | .ok (ms, op2, net2) => .ok (msg :: ms, op2, net2)

/-- `VendorClient.query_vendor_license_status` (client.py lines 504-525):
resolve the identifier, query status on the modern or legacy path, then
read one further usage response per element of `range(status["used"])`
with no new request — `Int.toNat` many, since `range` of a negative
number is empty. -/
def queryVendorLicenseStatus (lic : License) (oldproto : Option Bool) (ts : Nat)
    (net : Net) : Except PyErr (Status × Option Bool × Net) :=
  match resolveSign lic with
  | .error e => .error e
  | .ok sign =>
    match
      (if dialectLegacy oldproto then queryLicenseStatusOld lic.feature sign oldproto net
       else queryLicenseStatus lic.feature sign oldproto ts net) with
    | .error e => .error e
    | .ok (st, op1, net1) =>
      match drainUsage st.used.toNat op1 net1 with
      | .error e => .error e
      | .ok (us, op2, net2) => .ok ({ st with usage := us }, op2, net2)

/-! ## License-file text parsing (file.py `_flexnet_parse`, INCREMENT branch) -/

/-- Values held in the license dictionary of `_flexnet_parse`: strings,
the integer quantity, or the `others` token list. -/
inductive FVal where
  | s (v : String)
  | n (v : Int)
  | l (v : List String)
deriving Repr, DecidableEq

/-- A Python dictionary with insertion order: assigning an existing key
replaces its value in place, a new key is appended. -/
def setKV {β : Type} (r : List (String × β)) (k : String) (v : β) :
    List (String × β) :=
  match r with
  | [] => [(k, v)]
  | (k', v') :: rest => if k' = k then (k, v) :: rest else (k', v') :: setKV rest k v

/-- The license dictionary built for one INCREMENT/FEATURE line. -/
abbrev FRec := List (String × FVal)

/-- Python `list.pop(i)` with possibly negative index. -/
def pyPop {α : Type} (l : List α) (i : Int) : Except PyErr (α × List α) :=
  let j : Int := if i < 0 then i + l.length else i
  if h : 0 ≤ j ∧ j.toNat < l.length then
    .ok (l.get ⟨j.toNat, h.2⟩, l.eraseIdx j.toNat)
  else .error .indexError

/-- Python `s.strip('"')` on a token. -/
def stripQ (s : String) : String :=
  String.mk (((s.toList.dropWhile (· = '"')).reverse.dropWhile (· = '"')).reverse)

/-- Python `s.lower()` for ASCII tokens. -/
def lowerStr (s : String) : String :=
  String.mk (s.toList.map Char.toLower)

/-- Python `int(token)` on a string token. -/
def parseDecS (s : String) : Option Int :=
  parseDec (strB s)

/-- The value-continuation loop of `_flexnet_parse` (file.py lines 79-81):
while `opts[1]` is the token `=`, append `opts.pop(1)` twice to the value.
Each pass removes two tokens, so the fuel `opts.length` always suffices. -/
def contLoop (fuel : Nat) (val : String) (opts : List String) :
    Except PyErr (String × List String) :=
  if 1 < opts.length ∧ opts.get? 1 = some "=" then
    match fuel with
    | 0 => .error .timeout
    | fuel + 1 =>
      match pyPop opts 1 with
      | .error e => .error e
      | .ok (a, o1) =>
        match pyPop o1 1 with
        | .error e => .error e
        | .ok (b, o2) => contLoop fuel (val ++ a ++ b) o2
  else .ok (val, opts)

/-- The `KEY = VALUE` extraction loop of `_flexnet_parse` (file.py lines
74-82): while `=` occurs in `opts`, pop the value after the first `=`, pop
the `=`, pop the key before it (a negative index wraps around, as in
Python), run the continuation loop, and assign `lic[key] = val`.  Every
iteration removes at least three tokens, so the fuel `opts.length` always
suffices. -/
def kvLoop (fuel : Nat) (lic : FRec) (opts : List String) :
    Except PyErr (FRec × List String) :=
  if 0 < opts.count "=" then
    match fuel with
    | 0 => .error .timeout
    | fuel + 1 =>
      match opts.findIdx? (· = "=") with
      | none => .error .valueError
      | some i =>
        match pyPop opts ((i : Int) + 1) with
        | .error e => .error e
        | .ok (valTok, o1) =>
          match pyPop o1 (i : Int) with
          | .error e => .error e
          | .ok (_, o2) =>
            match pyPop o2 ((i : Int) - 1) with
            | .error e => .error e
            | .ok (keyTok, o3) =>
              let key := lowerStr (stripQ keyTok)
              match contLoop o3.length (stripQ valTok) o3 with
              | .error e => .error e
              | .ok (val, o4) => kvLoop fuel (setKV lic key (.s val)) o4
  else .ok (lic, opts)

/-- The INCREMENT/FEATURE branch of `_flexnet_parse` (file.py lines 62-85):
the five positional tokens (`uncounted` quantity becomes 0, otherwise the
token parses as a decimal), then the `KEY = VALUE` loop over the trailing
tokens, then any leftover tokens as `others`. -/
def flexnetIncrement (line : List String) : Except PyErr FRec :=
  match line.get? 1, line.get? 2, line.get? 3, line.get? 4, line.get? 5 with
  | some f, some v, some ver, some e, some q =>
    let qty? : Except PyErr Int :=
      if q = "uncounted" then .ok 0
      else match parseDecS q with
        | some n => .ok n
        | none => .error .valueError
    match qty? with
    | .error e' => .error e'
    | .ok qty =>
      let lic : FRec := [("feature", .s f), ("vendor", .s v), ("version", .s ver),
                         ("expdate", .s e), ("quantity", .n qty)]
      match kvLoop (line.drop 6).length lic (line.drop 6) with
      | .error e' => .error e'
      | .ok (lic1, opts) =>
        .ok (if 0 < opts.length then setKV lic1 "others" (.l opts) else lic1)
  | _, _, _, _, _ => .error .indexError

/-! ## Vendor license catalog (client.py `VendorClient.query_vendor_licenses`) -/

/-- A license-set dictionary: string keys to byte-string field values. -/
abbrev CRec := List (String × List Nat)

/-- The `keys` list of `query_vendor_licenses` (client.py line 496). -/
def keys8 : List String :=
  ["fid", "sig", "names", "date1", "date2", "fid", "url", "license_text"]

/-- One step of the assignment loop of `query_vendor_licenses` (client.py
lines 497-499): `license_sets[i/8][keys[i%8]] = text[i]`, raising
IndexError when `i/8` falls outside `license_sets`. -/
def catStep (fields : List (List Nat)) (sets : List CRec) (i : Nat) :
    Except PyErr (List CRec) :=
  match sets[i / 8]? with
  | none => .error .indexError
  | some lic =>
    .ok (sets.set (i / 8) (setKV lic (keys8.getD (i % 8) "") (fields.getD i [])))

/-- Lines 494-499 of client.py: `num = len(text)/8` empty dictionaries,
then `for i in range(len(text))` over the assignment step. -/
def catalogDecode (fields : List (List Nat)) : Except PyErr (List CRec) :=
  (List.range fields.length).foldlM (catStep fields)
    (List.replicate (fields.length / 8) [])

/-- `re.match('^\s*$', x)`: the field is entirely whitespace. -/
def pyBlank (x : List Nat) : Bool :=
  x.all (fun c => wsChars.contains c)

/-- The blank-entry filter of `query_vendor_licenses` (client.py line 493). -/
def vendorLicensesFields (text : List (List Nat)) : List (List Nat) :=
  text.filter (fun x => !(pyBlank x))

/-- `VendorClient.query_vendor_licenses` (client.py lines 488-501) given the
STUB2 text fields: filter blanks, decode groups of eight, and extend the
accumulated `license_sets`; an IndexError propagates and extends nothing. -/
def queryVendorLicenses (sets : List CRec) (text : List (List Nat)) :
    Except PyErr (List CRec) :=
  match catalogDecode (vendorLicensesFields text) with
  | .error e => .error e
  | .ok r => .ok (sets ++ r)

/-- The normal form of one decoded license-set record: eight consecutive
fields keyed `fid, sig, names, date1, date2, fid, url, license_text`, the
second `fid` (field 5) overwriting the first (field 0). -/
def recOf (g : List (List Nat)) : CRec :=
  [("fid", g.getD 5 []), ("sig", g.getD 1 []), ("names", g.getD 2 []),
   ("date1", g.getD 3 []), ("date2", g.getD 4 []), ("url", g.getD 6 []),
   ("license_text", g.getD 7 [])]

/-- The decoded catalog: one record per consecutive group of eight fields. -/
def recsOf (fields : List (List Nat)) : List CRec :=
  if h : fields = [] then []
  else recOf (fields.take 8) :: recsOf (fields.drop 8)
termination_by fields.length
decreasing_by
  simp only [List.length_drop]
  have : 0 < fields.length := List.length_pos.mpr h
  omega

/-! ## Projections and post-conditions used by the verification statements -/

/-- The `type` field of a successfully parsed header. -/
def parsedHType (r : Except PyErr Header) : Option Nat :=
  match r with
  | .ok hd => hd.htype
  | .error _ => none

/-- The `msg_len` field of a successfully parsed header. -/
def parsedMsgLen (r : Except PyErr Header) : Option Nat :=
  match r with
  | .ok hd => hd.msg_len
  | .error _ => none

/-- The `len` field of a successfully parsed header. -/
def parsedLen (r : Except PyErr Header) : Option Nat :=
  match r with
  | .ok hd => hd.len
  | .error _ => none

/-- What a completed `query_vendor_license_status` run guarantees: the
stored usage list has exactly `max(used, 0)` entries (`Int.toNat`, the
size of Python's `range(used)`), exactly one request (the framed REQLIC
status query) was written, and exactly `1 + max(used, 0)` responses were
read (the status reply plus one per usage record). -/
def usageDrainPost (lic : License) (ts : Nat) (net : Net)
    (r : Except PyErr (Status × Option Bool × Net)) : Prop :=
  match r with
  | .error _ => True
  | .ok (st, _, net1) =>
    st.usage.length = st.used.toNat ∧
    (∃ sign, resolveSign lic = .ok sign ∧
      net1.sent = net.sent ++ [writeFrame 0x013c ts (statusReqBody lic.feature sign)]) ∧
    net1.reads = net.reads + 1 + st.used.toNat

/-! ## Concrete demonstration data for the witnesses -/

/-- A valid REQLIC1 (license status) response frame: `used = 1`,
`total = 5`, `timestamp = 7`. -/
def reqlic1Demo : List Nat :=
  mkModernFrame (pack16 27 ++ pack16 0x004e ++ pack32 0 ++ List.replicate 8 0 ++
    ([0, 0] ++ strB "1" ++ [0] ++ strB "5" ++ [0] ++ strB "7"))

/-- A valid REQLIC2 (usage record) response frame: a user checkout. -/
def reqlic2Demo : List Nat :=
  mkModernFrame (pack16 44 ++ pack16 0x0114 ++ pack32 0 ++ List.replicate 8 0 ++
    (strB "u" ++ [0] ++ strB "h" ++ [0] ++ strB "t" ++ [0] ++ strB "v" ++ [1] ++
     [9, 9, 9, 9, 0, 0, 0, 7, 0, 0, 0, 0, 0, 0, 0, 9]))

/-- A network whose stream holds one status reply and one usage record. -/
def c3DemoNet : Net :=
  { stream := reqlic1Demo ++ reqlic2Demo, sent := [], reads := 0 }

/-- A license with a signature, for the status-query witness. -/
def c3DemoLic : License :=
  { feature := strB "f", sign := some (strB "S") }

/-- A REQLIC1 status reply whose `used` field is the string `"-1"`
(`total = 5`, `timestamp = 7`): Python 2 `int("-1")` parses it to `-1`
and `range(-1)` is empty, so the sweep completes with no usage records. -/
def reqlic1NegDemo : List Nat :=
  mkModernFrame (pack16 28 ++ pack16 0x004e ++ pack32 0 ++ List.replicate 8 0 ++
    ([0, 0] ++ strB "-1" ++ [0] ++ strB "5" ++ [0] ++ strB "7"))

/-- A network whose stream holds only the negative-`used` status reply. -/
def c3NegNet : Net :=
  { stream := reqlic1NegDemo, sent := [], reads := 0 }

/-- One legacy 147-byte chunk declaring length exactly 134. -/
def legacy134Demo : List Nat :=
  0x4c :: 0 :: strB "134" ++ List.replicate 142 0

/-- Two legacy 147-byte chunks: the first declares 268 (> 134), the second
declares 121 (≤ 134); payloads `"dlist foo"` and `" bar baz"`. -/
def legacyTwoDemo : List Nat :=
  (0x4c :: 0 :: strB "268" ++ List.replicate 8 0 ++ strB "dlist foo" ++
    List.replicate 125 0) ++
  (0x4c :: 0 :: strB "121" ++ List.replicate 8 0 ++ strB " bar baz" ++
    List.replicate 126 0)

/-! # Verification of the frozen claims -/

set_option maxRecDepth 8000

/-- For bytes, the packed version comparison `a << 8 | b` coincides with
`256 * a + b`. -/
theorem lor_eq_mul_add (a b : Nat) (h : b < 256) : a <<< 8 ||| b = 256 * a + b := by
  have h3 : b < 2 ^ 8 := by norm_num at h ⊢; exact h
  calc a <<< 8 ||| b = 2 ^ 8 * a ||| b := by rw [Nat.shiftLeft_eq, Nat.mul_comm]
    _ = 2 ^ 8 * a + b := (Nat.mul_add_lt_is_or h3 a).symm
    _ = 256 * a + b := by norm_num

/-- C4 (amended): the dialect established by the first HELLO reply is
LEGACY exactly when the server version is lexicographically below (11, 10)
(for byte-valued version components); the LEGACY setting is one-way sticky
(it never reverts to MODERN); and a repeated HELLO carrying the same
version leaves the dialect unchanged.  (A later HELLO carrying an older
version can still flip a MODERN connection to LEGACY, which is what the
counterexample exhibits.) -/
theorem c4_dialect_negotiation :
    (∀ v : Nat × Nat, v.1 < 256 → v.2 < 256 →
      dialectLegacy (processHelloVer none v) = lexBelowVerNew v) ∧
    (∀ (op : Option Bool) (v : Nat × Nat), dialectLegacy op = true →
      dialectLegacy (processHelloVer op v) = true) ∧
    (∀ (op : Option Bool) (v : Nat × Nat),
      processHelloVer (processHelloVer op v) v = processHelloVer op v) := by
  refine ⟨?_, ?_, ?_⟩
  · rintro ⟨a, b⟩ h1 h2
    have hor : a <<< 8 ||| b = 256 * a + b := lor_eq_mul_add a b h2
    have hver : ((11 : Nat) <<< 8) ||| 10 = 2826 := by decide
    simp only [processHelloVer, VER_NEW, hor, hver]
    by_cases hc : 256 * a + b < 2826
    · rw [if_pos hc]
      simp only [dialectLegacy, Option.getD_some, lexBelowVerNew]
      rw [eq_comm]
      simp only [Bool.or_eq_true, decide_eq_true_eq, Bool.and_eq_true]
      omega
    · rw [if_neg hc]
      simp only [dialectLegacy, Option.getD_none, lexBelowVerNew]
      rw [eq_comm]
      simp only [Bool.or_eq_false_iff, decide_eq_false_iff_not, Bool.and_eq_false_iff,
        decide_eq_true_eq]
      omega
  · intro op v h
    simp only [dialectLegacy] at h
    by_cases hc : (v.1 <<< 8) ||| v.2 < ((VER_NEW.1 <<< 8) ||| VER_NEW.2) <;>
      simp [processHelloVer, hc, dialectLegacy, h]
  · intro op v
    by_cases hc : (v.1 <<< 8) ||| v.2 < ((VER_NEW.1 <<< 8) ||| VER_NEW.2) <;>
      simp [processHelloVer, hc]

/-- C4 counterexample: on a connection whose first HELLO reports version
(11, 10) the dialect is MODERN, but a later HELLO reporting (11, 9) flips
the same connection to LEGACY, so the dialect established by the first
HELLO is not sticky. -/
theorem c4_counterexample :
    dialectLegacy (processHelloVer none (11, 10)) = false ∧
    dialectLegacy (processHelloVer (processHelloVer none (11, 10)) (11, 9)) = true := by
  decide

/-- C4 witness: version (11, 9) on a fresh connection yields LEGACY, in
agreement with the lexicographic rule. -/
theorem c4_dialect_negotiation_witness :
    dialectLegacy (processHelloVer none (11, 9)) = lexBelowVerNew (11, 9) :=
  c4_dialect_negotiation.1 (11, 9) (by decide) (by decide)

/-- C5 (amended): for fields that fit the declared widths, the packed HELLO
request is exactly 147 bytes long (not 146: the literal trailer
`'78\x0014\x00'` is six bytes), its first four bytes are
`0x68, C, 0x31, 0x33`, and `C` is the modular sum of all remaining bytes
except the last two. -/
theorem c5_hello_packet (user host vendor tty pid arch : List Nat) (v1 v2 : Nat)
    (hu : user.length ≤ 20) (hh : host.length ≤ 32) (hv : vendor.length ≤ 10)
    (ht : tty.length ≤ 32) (hp : pid.length ≤ 10) (ha : arch.length ≤ 12) :
    (helloPack user host vendor tty pid arch (v1, v2)).length = 147 ∧
    (helloPack user host vendor tty pid arch (v1, v2)).get? 0 = some 0x68 ∧
    (helloPack user host vendor tty pid arch (v1, v2)).get? 2 = some 0x31 ∧
    (helloPack user host vendor tty pid arch (v1, v2)).get? 3 = some 0x33 ∧
    (helloPack user host vendor tty pid arch (v1, v2)).get? 1 = some
      ((((helloPack user host vendor tty pid arch (v1, v2)).drop 4).take
        (((helloPack user host vendor tty pid arch (v1, v2)).drop 4).length - 2)).sum
        % 256) := by
  refine ⟨?_, rfl, rfl, rfl, rfl⟩
  simp [helloPack, ljustZ]
  omega

/-- C5 counterexample: with the example fields of the claim the packed
HELLO request is 147 bytes, not 146. -/
theorem c5_counterexample :
    (helloPack (strB "alice") (strB "work") [] (strB "/dev/pts/1") (strB "4242")
      (strB "x64_lsb") (11, 11)).length ≠ 146 ∧
    (helloPack (strB "alice") (strB "work") [] (strB "/dev/pts/1") (strB "4242")
      (strB "x64_lsb") (11, 11)).length = 147 := by
  decide

/-- C5 witness: the example HELLO request is 147 bytes long. -/
theorem c5_hello_packet_witness :
    (helloPack (strB "alice") (strB "work") [] (strB "/dev/pts/1") (strB "4242")
      (strB "x64_lsb") (11, 11)).length = 147 :=
  (c5_hello_packet (strB "alice") (strB "work") [] (strB "/dev/pts/1") (strB "4242")
    (strB "x64_lsb") 11 11 (by decide) (by decide) (by decide) (by decide)
    (by decide) (by decide)).1

/-- C7 (code evaluation at the claimed input): on the claim's example line
the code does not produce `sign = "ABCD"` and `notice = "site A"`.  The
continuation check `opts[1] == '='` fires on the tokens left after the
first `KEY = VALUE` extraction, so the second pair is folded into the
first value: `sign` becomes `ABCD="site A"`, `NOTICE` lands in `others`,
and no `notice` entry exists. -/
theorem c7_code_behavior :
    flexnetIncrement ["INCREMENT", "widget", "acme", "1.0", "31-dec-2030", "5",
      "SIGN", "=", "\"ABCD\"", "NOTICE", "=", "\"site A\""] =
    .ok [("feature", FVal.s "widget"), ("vendor", FVal.s "acme"),
         ("version", FVal.s "1.0"), ("expdate", FVal.s "31-dec-2030"),
         ("quantity", FVal.n 5), ("sign", FVal.s "ABCD=\"site A\""),
         ("others", FVal.l ["NOTICE"])] ∧
    (flexnetIncrement ["INCREMENT", "widget", "acme", "1.0", "31-dec-2030", "5",
      "SIGN", "=", "\"ABCD\"", "NOTICE", "=", "\"site A\""]).toOption.bind
      (List.lookup "notice") = none := by
  exact ⟨by decide, by decide⟩

/-- C8 (amended): the status query uses the license's `sign` when it is a
non-empty string; when `sign` is absent or empty it falls back to the
first `others` token; and when both are absent the status query raises
(TypeError for a missing `others`, IndexError for an empty one) and the
error propagates out of `query_vendor_license_status` — the license is not
quietly reported without usage. -/
theorem c8_sign_fallback :
    (∀ (lic : License) (s : List Nat), lic.sign = some s → s ≠ [] →
      resolveSign lic = .ok s) ∧
    (∀ (lic : License) (x : List Nat) (rest : List (List Nat)),
      (lic.sign = none ∨ lic.sign = some []) → lic.others = some (x :: rest) →
      resolveSign lic = .ok x) ∧
    (∀ (lic : License) (op : Option Bool) (ts : Nat) (net : Net),
      (lic.sign = none ∨ lic.sign = some []) → lic.others = none →
      queryVendorLicenseStatus lic op ts net = .error .typeError) ∧
    (∀ (lic : License) (op : Option Bool) (ts : Nat) (net : Net),
      (lic.sign = none ∨ lic.sign = some []) → lic.others = some [] →
      queryVendorLicenseStatus lic op ts net = .error .indexError) := by
  refine ⟨?_, ?_, ?_, ?_⟩
  · intro lic s hs hne
    simp [resolveSign, hs, hne]
  · rintro lic x rest (hs | hs) ho <;> simp [resolveSign, resolveOthers, hs, ho]
  · rintro lic op ts net (hs | hs) ho <;>
      simp [queryVendorLicenseStatus, resolveSign, resolveOthers, hs, ho]
  · rintro lic op ts net (hs | hs) ho <;>
      simp [queryVendorLicenseStatus, resolveSign, resolveOthers, hs, ho]

/-- C8 counterexample: a license with neither `sign` nor `others` makes
`query_vendor_license_status` raise a TypeError (from `None[0]`); the
status query is not skipped and the error is not caught by any caller in
the sweep. -/
theorem c8_counterexample :
    queryVendorLicenseStatus { feature := strB "f" } none 0
      { stream := [], sent := [], reads := 0 } = .error .typeError := by
  decide

/-- C8 witness: a present non-empty `sign` is used as the identifier. -/
theorem c8_sign_fallback_witness :
    resolveSign { feature := strB "f", sign := some (strB "S") } = .ok (strB "S") :=
  c8_sign_fallback.1 { feature := strB "f", sign := some (strB "S") } (strB "S")
    rfl (by decide)

/-- C2: checksum acceptance.  Whenever the header parser accepts a
0x2F-prefixed frame, the received bytes 1..4 equal the recomputed
`checkbytes` triple (check byte, CRC high, CRC low) over `header ++ body`
(= `data[4:]`); contrapositively, on any mismatch it raises and produces
no message. -/
theorem c2_checksum_acceptance (data : List Nat)
    (h2f : data.get? 0 = some 0x2f)
    (hok : (headerParse data).isOk = true) :
    pySlice data 1 4 = checkbytes (data.drop 4) := by
  unfold headerParse at hok
  rw [h2f] at hok
  norm_num at hok
  repeat' split at hok
  all_goals first
    | (rename_i hcond; exact hcond.symm)
    | simp [Except.isOk, Except.toBool] at hok

/-- C2 witness: a concrete valid REQLIC1 frame is accepted and its wire
check triple equals the recomputed one. -/
theorem c2_checksum_acceptance_witness :
    pySlice reqlic1Demo 1 4 = checkbytes (reqlic1Demo.drop 4) :=
  c2_checksum_acceptance reqlic1Demo (by decide) (by decide)

/-- The first element of a non-trivial `take`-prefix of a cons list. -/
theorem take_cons_append_get (a : Nat) (l bs : List Nat) (n : Nat) (hn : 0 < n) :
    (((a :: l).take n) ++ bs).get? 0 = some a := by
  obtain ⟨m, rfl⟩ : ∃ m, n = m + 1 := ⟨n - 1, by omega⟩
  simp [List.take_succ_cons]

/-- Every response successfully returned by the read stage of `_query`
starts with one of the accepted prefixes. -/
theorem queryRead_ok_head (st : Net) (resp : List Nat) (net1 : Net)
    (h : queryRead st = .ok (resp, net1)) :
    resp.get? 0 = some 0x2f ∨ resp.get? 0 = some 0x4c ∨ resp.get? 0 = some 0x4e := by
  unfold queryRead at h
  split at h
  · simp at h
  next p l hst =>
    rw [hst] at h
    split at h
    · simp at h
    next hgate =>
      split at h
      next hp4c =>
        subst hp4c
        split at h
        · simp at h
        next resp0 rest0 hleg =>
          simp only [Except.ok.injEq, Prod.mk.injEq] at h
          unfold legacyQuery at hleg
          split at hleg
          · simp at hleg
          next d hd =>
            split at hleg
            · simp at hleg
            next bs k hloop =>
              simp only [Except.ok.injEq, Prod.mk.injEq] at hleg
              right; left
              rw [← h.1, ← hleg.1]
              exact take_cons_append_get 0x4c l bs 147 (by norm_num)
      next hp4c =>
        split at h
        next hp4e =>
          subst hp4e
          simp only [Except.ok.injEq, Prod.mk.injEq] at h
          right; right
          rw [← h.1]
          have h2 := take_cons_append_get 0x4e l [] 147 (by norm_num)
          rw [List.append_nil] at h2
          exact h2
        next hp4e =>
          have hp2f : p = 0x2f := by tauto
          subst hp2f
          split at h
          · simp at h
          split at h
          · simp only [Except.ok.injEq, Prod.mk.injEq] at h
            left
            rw [← h.1]
            have h2 := take_cons_append_get 0x2f l [] 20 (by norm_num)
            rw [List.append_nil] at h2
            exact h2
          split at h
          · simp at h
          · simp only [Except.ok.injEq, Prod.mk.injEq] at h
            left
            rw [← h.1]
            have h2 := take_cons_append_get 0x2f l []
              (256 * ((0x2f :: l).getD 4 0) + (0x2f :: l).getD 5 0) (by omega)
            rw [List.append_nil] at h2
            exact h2

/-- C9: integrity verification applies only to modern frames.  Header
parsing of a 0x4C frame returns `{prefix}` and of a 0x4E frame
`{prefix, len = 2}` before any check-byte or CRC computation, whatever the
remaining bytes; a `checksumError` can only arise for a frame whose first
byte is neither 0x4C nor 0x4E; and `_query` only ever hands frames whose
first byte is 0x2F, 0x4C or 0x4E to the parser — so a checksum mismatch
can only ever be raised for a 0x2F-prefixed frame, and legacy payloads are
accepted with no integrity check at all. -/
theorem c9_legacy_no_integrity :
    (∀ data : List Nat, data.get? 0 = some 0x4c →
      headerParse data = .ok { pfx := 0x4c }) ∧
    (∀ data : List Nat, data.get? 0 = some 0x4e →
      headerParse data = .ok { pfx := 0x4e, len := some 2 }) ∧
    (∀ data : List Nat, headerParse data = .error .checksumError →
      data.get? 0 ≠ some 0x4c ∧ data.get? 0 ≠ some 0x4e) ∧
    (∀ (req : Option (List Nat)) (net : Net) (resp : List Nat) (net1 : Net),
      query req net = .ok (resp, net1) →
      resp.get? 0 = some 0x2f ∨ resp.get? 0 = some 0x4c ∨ resp.get? 0 = some 0x4e) := by
  refine ⟨?_, ?_, ?_, ?_⟩
  · intro data h
    unfold headerParse
    rw [h]
    norm_num
  · intro data h
    unfold headerParse
    rw [h]
    norm_num
  · intro data h
    constructor <;> intro hc <;> (unfold headerParse at h; rw [hc] at h; simp at h)
  · intro req net resp net1 h
    unfold query at h
    exact queryRead_ok_head _ resp net1 h

/-- C9 witness: a 0x4C frame parses to the bare legacy header with no
check-byte comparison at all. -/
theorem c9_legacy_no_integrity_witness :
    headerParse legacy134Demo = .ok { pfx := 0x4c } :=
  c9_legacy_no_integrity.1 legacy134Demo (by decide)

/-- Any list of length at least four starts with four explicit elements. -/
theorem exists_four_cons {α : Type} (b : List α) (h : 4 ≤ b.length) :
    ∃ b0 b1 b2 b3 rest, b = b0 :: b1 :: b2 :: b3 :: rest := by
  rcases b with _ | ⟨b0, b⟩
  · simp only [List.length_nil] at h; omega
  rcases b with _ | ⟨b1, b⟩
  · simp only [List.length_nil, List.length_cons] at h; omega
  rcases b with _ | ⟨b2, b⟩
  · simp only [List.length_nil, List.length_cons] at h; omega
  rcases b with _ | ⟨b3, b⟩
  · simp only [List.length_nil, List.length_cons] at h; omega
  exact ⟨b0, b1, b2, b3, b, rfl⟩

set_option maxHeartbeats 1600000 in
/-- C1 (amended): for every message type registered in `HEADERLENS` (the
frame round-trip claim fails for unregistered types, which raise KeyError)
and every body `b` (with `|b| + 20 < 2^16`, and at least 4 body bytes for
the types with a 24-byte registered header length), parsing the modern
frame produced by `write_frame` succeeds, recovers exactly the type `t`,
the declared length `|b| + 20` and the registered header length `L`, and
the bytes of the frame past the registered header length are exactly the
bytes of `b` past `L - 20`; the response parser then hands each branch
type-specific parsed fields rather than the raw body. -/
theorem c1_frame_roundtrip (t L ts : Nat) (b : List Nat)
    (hL : HEADERLENS t = some L)
    (hlen : b.length + 20 < 65536)
    (hts : ts < 4294967296)
    (hbL : L ≤ 20 + b.length) :
    parsedHType (headerParse (writeFrame t ts b)) = some t ∧
    parsedMsgLen (headerParse (writeFrame t ts b)) = some (b.length + 20) ∧
    parsedLen (headerParse (writeFrame t ts b)) = some L ∧
    (writeFrame t ts b).drop L = b.drop (L - 20) := by
  have hcases : (t = 0x004e ∧ L = 20) ∨ (t = 0x010e ∧ L = 24) ∨ (t = 0x0113 ∧ L = 20) ∨
      (t = 0x0114 ∧ L = 20) ∨ (t = 0x0128 ∧ L = 20) ∨ (t = 0x0146 ∧ L = 24) := by
    unfold HEADERLENS at hL
    split_ifs at hL <;> simp_all
  rcases hcases with ⟨rfl, rfl⟩ | ⟨rfl, rfl⟩ | ⟨rfl, rfl⟩ | ⟨rfl, rfl⟩ | ⟨rfl, rfl⟩ |
    ⟨rfl, rfl⟩
  · refine ⟨?_, ?_, ?_, rfl⟩ <;>
      (unfold headerParse
       simp only [writeFrame, headerCreate, hdr16, ljustZ, pack16, pack32, checkbytes,
         pySlice, List.cons_append, List.nil_append, List.append_assoc]
       norm_num [List.take, List.drop, unpack16, unpack32, unpack2B, HEADERLENS,
         parsedHType, parsedMsgLen, parsedLen]) <;> omega
  · obtain ⟨b0, b1, b2, b3, rest, rfl⟩ := exists_four_cons b (by omega)
    refine ⟨?_, ?_, ?_, rfl⟩ <;>
      (unfold headerParse
       simp only [writeFrame, headerCreate, hdr16, ljustZ, pack16, pack32, checkbytes,
         pySlice, List.cons_append, List.nil_append, List.append_assoc]
       norm_num [List.take, List.drop, unpack16, unpack32, unpack2B, HEADERLENS,
         parsedHType, parsedMsgLen, parsedLen]) <;> (simp at hlen; omega)
  · refine ⟨?_, ?_, ?_, rfl⟩ <;>
      (unfold headerParse
       simp only [writeFrame, headerCreate, hdr16, ljustZ, pack16, pack32, checkbytes,
         pySlice, List.cons_append, List.nil_append, List.append_assoc]
       norm_num [List.take, List.drop, unpack16, unpack32, unpack2B, HEADERLENS,
         parsedHType, parsedMsgLen, parsedLen]) <;> omega
  · refine ⟨?_, ?_, ?_, rfl⟩ <;>
      (unfold headerParse
       simp only [writeFrame, headerCreate, hdr16, ljustZ, pack16, pack32, checkbytes,
         pySlice, List.cons_append, List.nil_append, List.append_assoc]
       norm_num [List.take, List.drop, unpack16, unpack32, unpack2B, HEADERLENS,
         parsedHType, parsedMsgLen, parsedLen]) <;> omega
  · refine ⟨?_, ?_, ?_, rfl⟩ <;>
      (unfold headerParse
       simp only [writeFrame, headerCreate, hdr16, ljustZ, pack16, pack32, checkbytes,
         pySlice, List.cons_append, List.nil_append, List.append_assoc]
       norm_num [List.take, List.drop, unpack16, unpack32, unpack2B, HEADERLENS,
         parsedHType, parsedMsgLen, parsedLen]) <;> omega
  · obtain ⟨b0, b1, b2, b3, rest, rfl⟩ := exists_four_cons b (by omega)
    refine ⟨?_, ?_, ?_, rfl⟩ <;>
      (unfold headerParse
       simp only [writeFrame, headerCreate, hdr16, ljustZ, pack16, pack32, checkbytes,
         pySlice, List.cons_append, List.nil_append, List.append_assoc]
       norm_num [List.take, List.drop, unpack16, unpack32, unpack2B, HEADERLENS,
         parsedHType, parsedMsgLen, parsedLen]) <;> (simp at hlen; omega)

/-- C1 counterexample: a frame written with type 0x0108 (TYPE_REQ, absent
from `HEADERLENS`) is not parsed back at all — the response parser raises
KeyError and yields neither the type nor the body. -/
theorem c1_counterexample :
    requestParse none (writeFrame 0x0108 0 (strB "body")) = .error .keyError := by
  decide

/-- C1 witness: a STUB2-typed frame with body "ab" round-trips its type. -/
theorem c1_frame_roundtrip_witness :
    parsedHType (headerParse (writeFrame 0x0128 0 (strB "ab"))) = some 0x0128 :=
  (c1_frame_roundtrip 0x0128 20 0 (strB "ab") (by decide) (by decide) (by decide)
    (by decide)).1

/-- The read stage never touches the request log or the read counter. -/
theorem queryRead_ok_meta (st : Net) (resp : List Nat) (net1 : Net)
    (h : queryRead st = .ok (resp, net1)) :
    net1.sent = st.sent ∧ net1.reads = st.reads := by
  unfold queryRead at h
  repeat' split at h
  all_goals
    first
      | (simp only [Except.ok.injEq, Prod.mk.injEq] at h
         rw [← h.2]
         exact ⟨rfl, rfl⟩)
      | simp at h

/-- Sending a request appends exactly it and counts one read. -/
theorem query_some_meta (r : List Nat) (net : Net) (resp : List Nat) (net1 : Net)
    (h : query (some r) net = .ok (resp, net1)) :
    net1.sent = net.sent ++ [r] ∧ net1.reads = net.reads + 1 := by
  unfold query at h
  exact queryRead_ok_meta _ resp net1 h

/-- A read without a request leaves the request log unchanged. -/
theorem query_none_meta (net : Net) (resp : List Nat) (net1 : Net)
    (h : query none net = .ok (resp, net1)) :
    net1.sent = net.sent ∧ net1.reads = net.reads + 1 := by
  unfold query at h
  exact queryRead_ok_meta _ resp net1 h

/-- The usage drain returns one message per iteration, sends nothing, and
performs exactly `n` reads. -/
theorem drainUsage_spec (n : Nat) (op : Option Bool) (net : Net)
    (ms : List Msg) (op2 : Option Bool) (net2 : Net)
    (h : drainUsage n op net = .ok (ms, op2, net2)) :
    ms.length = n ∧ net2.sent = net.sent ∧ net2.reads = net.reads + n := by
  induction n generalizing op net ms op2 net2 with
  | zero =>
    unfold drainUsage at h
    simp only [Except.ok.injEq, Prod.mk.injEq] at h
    obtain ⟨rfl, rfl, rfl⟩ := h
    exact ⟨rfl, rfl, rfl⟩
  | succ m ih =>
    unfold drainUsage at h
    split at h
    · simp at h
    next resp net1 hq =>
      split at h
      · simp at h
      next msg op1 hp =>
        split at h
        · simp at h
        next ms1 op2' net2' hd =>
          simp only [Except.ok.injEq, Prod.mk.injEq] at h
          obtain ⟨rfl, rfl, rfl⟩ := h
          obtain ⟨hl, hs, hr⟩ := ih op1 net1 ms1 op2' net2' hd
          obtain ⟨hs1, hr1⟩ := query_none_meta net resp net1 hq
          refine ⟨by simp [hl], by rw [hs, hs1], by rw [hr, hr1]; omega⟩

/-- A successful modern status query writes exactly the framed REQLIC
request and performs exactly one read. -/
theorem queryLicenseStatus_meta (feature sign : List Nat) (op : Option Bool) (ts : Nat)
    (net : Net) (st : Status) (op1 : Option Bool) (net1 : Net)
    (h : queryLicenseStatus feature sign op ts net = .ok (st, op1, net1)) :
    net1.sent = net.sent ++ [writeFrame 0x013c ts (statusReqBody feature sign)] ∧
    net1.reads = net.reads + 1 := by
  unfold queryLicenseStatus at h
  split at h
  · simp at h
  next resp netA hq =>
    split at h
    · simp at h
    next msg opA hp =>
      split at h
      next p u t tm =>
        simp only [Except.ok.injEq, Prod.mk.injEq] at h
        obtain ⟨-, -, rfl⟩ := h
        exact query_some_meta _ net resp netA hq
      · simp at h

/-- C3 (amended): usage drain.  On the modern dialect, whenever
`query_vendor_license_status` completes successfully (its status stage
parsed a REQLIC1 reply reporting `used`), the stored `status.usage` list
has exactly `max(status.used, 0)` entries — the size of Python's
`range(used)`, which is empty for a negative `used`, so the claimed
equality `len(usage) = used` holds only for `used >= 0` — exactly one
request (the framed REQLIC status query) was written on the connection,
and exactly `1 + max(used, 0)` responses were read: the status reply plus
one per usage record, with no request sent during the drain. -/
theorem c3_usage_drain (lic : License) (op : Option Bool) (ts : Nat) (net : Net)
    (hmodern : dialectLegacy op = false) :
    usageDrainPost lic ts net (queryVendorLicenseStatus lic op ts net) := by
  unfold usageDrainPost
  split
  · trivial
  next st op2 net2 heq =>
    unfold queryVendorLicenseStatus at heq
    split at heq
    · simp at heq
    next sign hsign =>
      rw [hmodern] at heq
      simp only [Bool.false_eq_true, if_false] at heq
      split at heq
      · simp at heq
      next st0 op1 net1 hstatus =>
        split at heq
        · simp at heq
        next us opB netB hdrain =>
          simp only [Except.ok.injEq, Prod.mk.injEq] at heq
          obtain ⟨rfl, rfl, rfl⟩ := heq
          obtain ⟨hl, hs, hr⟩ := drainUsage_spec st0.used.toNat op1 net1 us opB netB hdrain
          obtain ⟨hs1, hr1⟩ := queryLicenseStatus_meta lic.feature sign op ts net st0
            op1 net1 hstatus
          refine ⟨by simp [hl], ⟨sign, hsign, by rw [hs, hs1]⟩, by rw [hr, hr1]⟩

/-- C3 witness: on a stream holding one REQLIC1 reply (`used = 1`) and one
REQLIC2 usage record, the query completes and satisfies the drain
post-condition. -/
theorem c3_usage_drain_witness :
    usageDrainPost c3DemoLic 0 c3DemoNet
      (queryVendorLicenseStatus c3DemoLic none 0 c3DemoNet) ∧
    (queryVendorLicenseStatus c3DemoLic none 0 c3DemoNet).isOk = true :=
  ⟨c3_usage_drain c3DemoLic none 0 c3DemoNet (by decide), by decide⟩

/-- C3 counterexample to the original claim: a status reply whose `used`
field reads `"-1"` completes the sweep (Python 2 `int("-1") = -1` and
`range(-1)` is empty, so no usage frame is read), yet the stored usage
list has 0 entries while `status.used` is `-1` — the original equality
`len(status.usage) = status.used` fails on this run. -/
theorem c3_counterexample :
    ∃ st rest, queryVendorLicenseStatus c3DemoLic none 0 c3NegNet =
        .ok (st, rest) ∧ st.used = -1 ∧ st.usage = [] ∧
      ((st.usage.length : Int) = st.used → False) := by
  refine ⟨_, _, rfl, by decide, by decide, by decide⟩

/-- Eight consecutive loop indices fill one empty license-set slot with
the eight fields of its group, the sixth (`fid`) overwriting the first. -/
theorem catStep_group (fields : List (List Nat)) (j : Nat) (sets : List CRec)
    (hj : j < sets.length) (hrec : sets[j]? = some []) :
    (List.range' (8*j) 8).foldlM (catStep fields) sets =
      .ok (sets.set j (recOf ((fields.drop (8*j)).take 8))) := by
  have e0 : 8*j / 8 = j := by omega
  have e1 : (8*j+1) / 8 = j := by omega
  have e2 : (8*j+1+1) / 8 = j := by omega
  have e3 : (8*j+1+1+1) / 8 = j := by omega
  have e4 : (8*j+1+1+1+1) / 8 = j := by omega
  have e5 : (8*j+1+1+1+1+1) / 8 = j := by omega
  have e6 : (8*j+1+1+1+1+1+1) / 8 = j := by omega
  have e7 : (8*j+1+1+1+1+1+1+1) / 8 = j := by omega
  have m0 : 8*j % 8 = 0 := by omega
  have m1 : (8*j+1) % 8 = 1 := by omega
  have m2 : (8*j+1+1) % 8 = 2 := by omega
  have m3 : (8*j+1+1+1) % 8 = 3 := by omega
  have m4 : (8*j+1+1+1+1) % 8 = 4 := by omega
  have m5 : (8*j+1+1+1+1+1) % 8 = 5 := by omega
  have m6 : (8*j+1+1+1+1+1+1) % 8 = 6 := by omega
  have m7 : (8*j+1+1+1+1+1+1+1) % 8 = 7 := by omega
  have g0 : (List.take 8 (List.drop (8*j) fields)).getD 0 [] = fields.getD (8*j) [] := by
    simp [List.getD_eq_getElem?_getD, List.getElem?_take, List.getElem?_drop]
  have g1 : (List.take 8 (List.drop (8*j) fields)).getD 1 [] = fields.getD (8*j+1) [] := by
    simp [List.getD_eq_getElem?_getD, List.getElem?_take, List.getElem?_drop]
  have g2 : (List.take 8 (List.drop (8*j) fields)).getD 2 [] = fields.getD (8*j+1+1) [] := by
    simp [List.getD_eq_getElem?_getD, List.getElem?_take, List.getElem?_drop]
  have g3 : (List.take 8 (List.drop (8*j) fields)).getD 3 [] = fields.getD (8*j+1+1+1) [] := by
    simp [List.getD_eq_getElem?_getD, List.getElem?_take, List.getElem?_drop]
  have g4 : (List.take 8 (List.drop (8*j) fields)).getD 4 [] = fields.getD (8*j+1+1+1+1) [] := by
    simp [List.getD_eq_getElem?_getD, List.getElem?_take, List.getElem?_drop]
  have g5 : (List.take 8 (List.drop (8*j) fields)).getD 5 [] = fields.getD (8*j+1+1+1+1+1) [] := by
    simp [List.getD_eq_getElem?_getD, List.getElem?_take, List.getElem?_drop]
  have g6 : (List.take 8 (List.drop (8*j) fields)).getD 6 [] = fields.getD (8*j+1+1+1+1+1+1) [] := by
    simp [List.getD_eq_getElem?_getD, List.getElem?_take, List.getElem?_drop]
  have g7 : (List.take 8 (List.drop (8*j) fields)).getD 7 [] = fields.getD (8*j+1+1+1+1+1+1+1) [] := by
    simp [List.getD_eq_getElem?_getD, List.getElem?_take, List.getElem?_drop]
  simp only [List.range']
  simp only [List.foldlM, catStep, e0, e1, e2, e3, e4, e5, e6, e7,
    m0, m1, m2, m3, m4, m5, m6, m7, hrec]
  simp [List.getElem?_set_self, List.length_set, hj, List.set_set, keys8, setKV,
    recOf, g0, g1, g2, g3, g4, g5, g6, g7, Bind.bind, Except.bind]
  norm_num [pure, Except.pure]

/-- Taking one past an updated slot splits off the written element. -/
theorem take_set_succ {α : Type} (l : List α) (j : Nat) (x : α) (h : j < l.length) :
    (l.set j x).take (j+1) = l.take j ++ [x] := by
  induction l generalizing j with
  | nil => simp at h
  | cons a t ih =>
    cases j with
    | zero => simp
    | succ m =>
      simp only [List.set_cons_succ, List.take_succ_cons, List.length_cons] at *
      rw [ih m (by omega)]
      simp

/-- From slot `j` on, the assignment loop over the remaining indices turns
the empty slots into the decoded records of the remaining 8-field groups. -/
theorem catalog_groups_ok (fields : List (List Nat)) :
    ∀ (n j : Nat) (sets : List CRec),
    j + n = sets.length →
    fields.length = 8 * sets.length →
    (∀ i, j ≤ i → i < sets.length → sets[i]? = some []) →
    (List.range' (8*j) (8*n)).foldlM (catStep fields) sets =
      .ok (sets.take j ++ recsOf (fields.drop (8*j))) := by
  intro n
  induction n with
  | zero =>
    intro j sets hjn hlen hempty
    have hdrop : fields.drop (8*j) = [] := List.drop_eq_nil_of_le (by omega)
    rw [hdrop]
    have htake : sets.take j = sets := List.take_of_length_le (by omega)
    rw [htake]
    simp [List.range', recsOf]
    rfl
  | succ m ih =>
    intro j sets hjn hlen hempty
    have hsplit : List.range' (8*j) (8*(m+1)) =
        List.range' (8*j) 8 ++ List.range' (8*j+8) (8*m) := by
      have h8 : (8:Nat)*(m+1) = 8*m + 8 := by ring
      have happ := List.range'_append (8*j) 8 (8*m) 1
      rw [h8, ← happ]
    rw [hsplit, List.foldlM_append,
      catStep_group fields j sets (by omega) (hempty j le_rfl (by omega))]
    have hne : fields.drop (8*j) ≠ [] := by
      have : (fields.drop (8*j)).length = fields.length - 8*j := by
        simp [List.length_drop]
      intro hcon
      rw [hcon] at this
      simp at this
      omega
    have hlen2 : fields.length = 8 * (sets.set j
        (recOf ((fields.drop (8*j)).take 8))).length := by
      simp [List.length_set]
      omega
    have hemp2 : ∀ i, j+1 ≤ i →
        i < (sets.set j (recOf ((fields.drop (8*j)).take 8))).length →
        (sets.set j (recOf ((fields.drop (8*j)).take 8)))[i]? = some [] := by
      intro i hi hilen
      rw [List.getElem?_set_ne (by omega)]
      exact hempty i (by omega) (by simpa using hilen)
    have hred := ih (j+1) (sets.set j (recOf ((fields.drop (8*j)).take 8)))
      (by simp [List.length_set]; omega) hlen2 hemp2
    rw [show (8:Nat)*j+8 = 8*(j+1) by ring]
    simp only [bind, Except.bind]
    rw [hred]
    rw [take_set_succ sets j _ (by omega)]
    have hrecs : recsOf (List.drop (8*j) fields) =
        recOf (List.take 8 (List.drop (8*j) fields)) ::
          recsOf (List.drop (8*(j+1)) fields) := by
      rw [recsOf, dif_neg hne, List.drop_drop]
      rw [show (8:Nat)*j + 8 = 8*(j+1) by ring]
    rw [hrecs]
    simp [List.append_assoc]

/-- When the field count is not a multiple of eight, the assignment loop
runs off the end of `license_sets` and raises IndexError. -/
theorem catalog_err (fields : List (List Nat)) (num : Nat) (hnum : 8 * num < fields.length) :
    ∀ (k i : Nat) (sets : List CRec), sets.length = num → i + k = 8 * num →
    (List.range' i (fields.length - i)).foldlM (catStep fields) sets =
      .error .indexError := by
  intro k
  induction k with
  | zero =>
    intro i sets hlen hik
    have hi : i = 8 * num := by omega
    subst hi
    obtain ⟨r, hr⟩ : ∃ r, fields.length - 8 * num = r + 1 := ⟨fields.length - 8*num - 1, by omega⟩
    rw [hr, List.range'_succ]
    have hdiv : 8 * num / 8 = num := by omega
    have hnone : sets[num]? = none := List.getElem?_eq_none (by omega)
    simp [List.foldlM, catStep, hdiv, hnone, Bind.bind, Except.bind]
  | succ m ih =>
    intro i sets hlen hik
    obtain ⟨r, hr⟩ : ∃ r, fields.length - i = r + 1 := ⟨fields.length - i - 1, by omega⟩
    rw [hr, List.range'_succ]
    have hdiv : i / 8 < sets.length := by omega
    obtain ⟨lic, hlic⟩ : ∃ lic, sets[i / 8]? = some lic :=
      ⟨sets[i / 8], List.getElem?_eq_getElem hdiv⟩
    have hstep := ih (i+1) (sets.set (i / 8) (setKV lic (keys8.getD (i % 8) "")
      (fields.getD i []))) (by simp [List.length_set, hlen]) (by omega)
    have hr2 : fields.length - (i + 1) = r := by omega
    rw [hr2] at hstep
    simp only [List.getD_eq_getElem?_getD] at hstep
    simp [List.foldlM, catStep, hlic, Bind.bind, Except.bind, hstep]

/-- C10: catalog decoding requires groups of eight.  After dropping blank
entries, `query_vendor_licenses` decodes consecutive 8-field records
(`fid, sig, names, date1, date2, fid, url, license_text`, the sixth field
overwriting the first `fid`) and appends them to `license_sets` exactly
when the number of non-blank fields is a multiple of 8; otherwise it
raises IndexError and appends nothing. -/
theorem c10_catalog_groups (text : List (List Nat)) (sets0 : List CRec) :
    ((vendorLicensesFields text).length % 8 = 0 →
      queryVendorLicenses sets0 text =
        .ok (sets0 ++ recsOf (vendorLicensesFields text))) ∧
    ((vendorLicensesFields text).length % 8 ≠ 0 →
      queryVendorLicenses sets0 text = .error .indexError) := by
  constructor
  · intro hmod
    have hlen8 : (vendorLicensesFields text).length =
        8 * ((vendorLicensesFields text).length / 8) := by omega
    have h := catalog_groups_ok (vendorLicensesFields text)
      ((vendorLicensesFields text).length / 8) 0
      (List.replicate ((vendorLicensesFields text).length / 8) ([] : CRec))
      (by simp) (by simpa using hlen8)
      (by
        intro i _ hi
        simp only [List.length_replicate] at hi
        simp [List.getElem?_replicate, hi])
    rw [← hlen8] at h
    norm_num at h
    unfold queryVendorLicenses catalogDecode
    rw [List.range_eq_range', h]
  · intro hmod
    have h := catalog_err (vendorLicensesFields text)
      ((vendorLicensesFields text).length / 8) (by omega)
      (8 * ((vendorLicensesFields text).length / 8)) 0
      (List.replicate ((vendorLicensesFields text).length / 8) ([] : CRec))
      (by simp) (by omega)
    norm_num at h
    unfold queryVendorLicenses catalogDecode
    rw [List.range_eq_range', h]

/-- C10 witness: eight non-blank fields decode to one record. -/
theorem c10_catalog_groups_witness :
    queryVendorLicenses [] [strB "a", strB "b", strB "c", strB "d", strB "e",
      strB "f", strB "g", strB "h"] =
    .ok ([] ++ recsOf (vendorLicensesFields [strB "a", strB "b", strB "c",
      strB "d", strB "e", strB "f", strB "g", strB "h"])) :=
  (c10_catalog_groups [strB "a", strB "b", strB "c", strB "d", strB "e",
    strB "f", strB "g", strB "h"] []).1 (by decide)

/-- Characterization of the 0x4C read loop: on success it has pulled `k`
whole 147-byte chunks off the stream; the loop runs at all only when the
incoming declared length exceeds 134; and the declared length parsed from
every chunk it pulled exceeds 134 except for the last one, which is at
most 134. -/
theorem legacyLoop_chunks : ∀ (fuel : Nat) (stream : List Nat) (d : Int)
    (bs : List Nat) (k : Nat),
    legacyLoop fuel stream d = .ok (bs, k) →
    bs = stream.take (147 * k) ∧
    ((134 < d ∧ 1 ≤ k) ∨ (d ≤ 134 ∧ k = 0)) ∧
    (∀ j, j < k → ∃ d', lengthRemainingB ((stream.drop (147 * j)).take 147) = some d' ∧
      (j + 1 < k → 134 < d') ∧ (j + 1 = k → d' ≤ 134)) := by
  intro fuel
  induction fuel with
  | zero =>
    intro stream d bs k h
    unfold legacyLoop at h
    split at h
    · simp at h
    · simp only [Except.ok.injEq, Prod.mk.injEq] at h
      obtain ⟨rfl, rfl⟩ := h
      refine ⟨by simp, Or.inr ⟨by omega, rfl⟩, by omega⟩
  | succ fuel ih =>
    intro stream d bs k h
    unfold legacyLoop at h
    split at h
    case isTrue h134 =>
      split at h
      · simp at h
      next fuel' heq =>
        have hf : fuel' = fuel := by omega
        subst hf
        split at h
        · simp at h
        next hlen =>
          split at h
          · simp at h
          next d0 hd0 =>
            split at h
            · simp at h
            next bs' k' hrec =>
              simp only [Except.ok.injEq, Prod.mk.injEq] at h
              obtain ⟨rfl, rfl⟩ := h
              obtain ⟨hbs', hdk', hj'⟩ := ih _ d0 bs' k' hrec
              refine ⟨?_, Or.inl ⟨h134, by omega⟩, ?_⟩
              · rw [hbs']
                rw [show 147 * (k' + 1) = 147 + 147 * k' by ring, List.take_add]
              · intro j hj
                cases j with
                | zero =>
                  refine ⟨d0, by simpa using hd0, ?_, ?_⟩
                  · intro h1
                    rcases hdk' with ⟨h134', _⟩ | ⟨_, rfl⟩
                    · exact h134'
                    · omega
                  · intro h1
                    rcases hdk' with ⟨_, hk1⟩ | ⟨hle, _⟩
                    · omega
                    · exact hle
                | succ j' =>
                  obtain ⟨d', hd', hint, hlast⟩ := hj' j' (by omega)
                  refine ⟨d', ?_, by intro hh; exact hint (by omega),
                    by intro hh; exact hlast (by omega)⟩
                  rw [show 147 * (j' + 1) = 147 + 147 * j' by ring, ← List.drop_drop]
                  exact hd'
    case isFalse h134 =>
      simp only [Except.ok.injEq, Prod.mk.injEq] at h
      obtain ⟨rfl, rfl⟩ := h
      refine ⟨by simp, Or.inr ⟨by omega, rfl⟩, by omega⟩

/-- C6: legacy chunked framing.  (1) A first chunk whose declared length
is at most 134 (in particular, exactly 134) completes the read: `_query`
returns the single 147-byte chunk without pulling a second frame.
(2) Every successful legacy read consists of `k >= 1` whole 147-byte
chunks; every chunk before the last declares a remaining length above
134, and the last declares at most 134.  (3) `_request_parse` on a
0x4C response returns as text the concatenation of bytes 13..147 of
every 147-byte chunk, stripped of NULs and split on NUL, and leaves the
dialect flag unchanged. -/
theorem c6_legacy_framing :
    (∀ s d, lengthRemainingB (s.take 147) = some d → d ≤ 134 →
      legacyQuery s = .ok (s.take 147, s.drop 147)) ∧
    (∀ s resp rest, legacyQuery s = .ok (resp, rest) →
      ∃ k, 1 ≤ k ∧ resp = s.take (147 * k) ∧ rest = s.drop (147 * k) ∧
        (∀ j, j + 1 < k →
          ∃ d, lengthRemainingB ((s.drop (147 * j)).take 147) = some d ∧ 134 < d) ∧
        (∃ d, lengthRemainingB ((s.drop (147 * (k - 1))).take 147) = some d ∧
          d ≤ 134)) ∧
    (∀ r op msg op', r.get? 0 = some 0x4c → requestParse op r = .ok (msg, op') →
      msg.text = some (splitOnNul (strip0 (chunkPayloads r.length r))) ∧
      op' = op) := by
  refine ⟨?_, ?_, ?_⟩
  · intro s d hd hle
    have hloop : legacyLoop s.length (s.drop 147) d = .ok ([], 0) := by
      unfold legacyLoop
      rw [if_neg (by omega : ¬ (134:Int) < d)]
    unfold legacyQuery
    simp only [hd, hloop]
    norm_num
  · intro s resp rest h
    unfold legacyQuery at h
    split at h
    · simp at h
    next d hd =>
      split at h
      · simp at h
      next bs k' hloop =>
        simp only [Except.ok.injEq, Prod.mk.injEq] at h
        obtain ⟨rfl, rfl⟩ := h
        obtain ⟨hbs, hdk, hj⟩ := legacyLoop_chunks _ _ _ _ _ hloop
        refine ⟨k' + 1, by omega, ?_, rfl, ?_, ?_⟩
        · rw [hbs, show 147 * (k' + 1) = 147 + 147 * k' by ring, List.take_add]
        · intro j hjk
          cases j with
          | zero =>
            refine ⟨d, by simpa using hd, ?_⟩
            rcases hdk with ⟨h134, _⟩ | ⟨_, rfl⟩
            · exact h134
            · omega
          | succ j' =>
            obtain ⟨d', hd', hint, _⟩ := hj j' (by omega)
            refine ⟨d', ?_, hint (by omega)⟩
            rw [show 147 * (j' + 1) = 147 + 147 * j' by ring, ← List.drop_drop]
            exact hd'
        · rcases Nat.eq_zero_or_pos k' with rfl | hk
          · refine ⟨d, by simpa using hd, ?_⟩
            rcases hdk with ⟨_, h1⟩ | ⟨h1, _⟩
            · omega
            · exact h1
          · obtain ⟨d', hd', _, hlast⟩ := hj (k' - 1) (by omega)
            refine ⟨d', ?_, hlast (by omega)⟩
            rw [show k' + 1 - 1 = k' by omega]
            rw [show 147 * k' = 147 + 147 * (k' - 1) by omega, ← List.drop_drop]
            exact hd'
  · intro r op msg op' h4c hp
    have hhd : headerParse r = .ok { pfx := 0x4c } := by
      unfold headerParse
      rw [h4c]
      norm_num
    unfold requestParse at hp
    rw [hhd] at hp
    norm_num at hp
    obtain ⟨h1, h2⟩ := hp
    subst h1
    subst h2
    exact ⟨rfl, rfl⟩

/-- Witness: the one-chunk demo response declaring exactly 134 bytes is
complete after its single 147-byte chunk. -/
theorem c6_legacy_framing_witness :
    lengthRemainingB (legacy134Demo.take 147) = some 134 ∧ (134:Int) ≤ 134 ∧
    legacyQuery legacy134Demo =
      .ok (legacy134Demo.take 147, legacy134Demo.drop 147) :=
  ⟨by decide, by decide,
    c6_legacy_framing.1 legacy134Demo 134 (by decide) (by decide)⟩
